import Mathlib

/-!
Shallow embedding of the `tfit` repository's `pkg/tfit` helper code:
the provider-error allow-listing, the string helpers, the EC2
instance fetch / map / render pipeline and the VPC fetch, together
with theorems checking the natural-language specification against it.

Modelling conventions:
* Go pointer-typed optional fields become `Option`.
* A Go `nil`-pointer dereference (a runtime panic) is modelled by the
  affected function returning `none` in an outer `Option` layer.
* `aws.StringValue` and `aws.Int64Value` become `Option.getD` with the
  zero value, exactly as the SDK helpers behave on `nil`.
* The `text/template` rendering of `Instances.WriteHCL` is embedded as a
  function producing the logical attribute lines of the template, in
  template order; the leading indentation that the HCL pretty-printing
  pass normalises away is dropped.  Brace characters inside string
  literals are written with the escapes \x7b and \x7d.
* Tag maps keyed by `*string` are embedded as association lists whose
  keys are (address, value) pairs compared by address, mirroring Go's
  pointer identity.
-/

namespace Tfit

/-- Model of `aws.StringValue`: dereference a `*string`, `nil` gives `""`. -/
def stringValue (o : Option String) : String := o.getD ""

/-- Model of `aws.Int64Value`: dereference a `*int64`, `nil` gives `0`. -/
def int64Value (o : Option Int) : Int := o.getD 0

/-- Go `error` values as seen by `handleError`: either an `awserr.Error`
carrying a code (the type assertion in the source succeeds), or any other
error value (the assertion fails). -/
inductive GoError where
  | awsErr (code msg : String)
  | generic (msg : String)
deriving DecidableEq

/-- Embedding of `handleError` (pkg/tfit/helper.go lines 24-45): the switch
on `awsErr.Code()` with six allow-listed codes returning `nil`. -/
def handleError (err : GoError) : Option GoError :=
  match err with
  | .awsErr code msg =>
    match code with
    | "NoSuchBucketPolicy" => none
    | "NoSuchWebsiteConfiguration" => none
    | "NoSuchLifecycleConfiguration" => none
    | "ReplicationConfigurationNotFoundError" => none
    | "ServerSideEncryptionConfigurationNotFoundError" => none
    | "NoSuchCORSConfiguration" => none
    | _ => some (.awsErr code msg)
  | e => some e

/-- The six allow-listed provider error codes named by the spec. -/
def allowedCodes : List String :=
  ["NoSuchBucketPolicy", "NoSuchWebsiteConfiguration",
   "NoSuchLifecycleConfiguration", "ReplicationConfigurationNotFoundError",
   "ServerSideEncryptionConfigurationNotFoundError", "NoSuchCORSConfiguration"]

/-- Embedding of `quote` (helper.go lines 73-80). -/
def quote (src : String) : String :=
  if src.startsWith "\"" && src.endsWith "\"" then src
  else "\"" ++ src ++ "\""

/-- The in-place loop of `joinStringSlice` (helper.go lines 83-85):
`for k, v := range src` assigns `src[k] = quote(v)` element by element in
order; this function is the final contents of the caller's slice. -/
def quoteLoop : List String → List String
  | [] => []
  | v :: rest => quote v :: quoteLoop rest

/-- Embedding of `joinStringSlice` (helper.go lines 82-88).  The Go
function mutates its argument slice in place before joining it; the
mutation is made explicit by returning the final slice contents as the
second component. -/
def joinStringSlice (sep : String) (src : List String) : String × List String :=
  (String.intercalate sep (quoteLoop src), quoteLoop src)

/-- A Go `*string` as a heap reference: an address plus the pointed-to
string.  Pointer identity is address equality. -/
structure StrPtr where
  addr : Nat
  val : String
deriving DecidableEq

/-- Model of `*ec2.Tag`: `Key` and `Value` are `*string` (possibly nil). -/
structure EC2Tag where
  Key : Option StrPtr
  Value : Option StrPtr
deriving DecidableEq

/-- Model of `*ec2.IamInstanceProfile` contents. -/
structure EC2IamInstanceProfile where
  Arn : Option String
deriving DecidableEq

/-- Model of `*ec2.Monitoring` contents. -/
structure EC2Monitoring where
  State : Option String
deriving DecidableEq

/-- Model of `*ec2.GroupIdentifier` contents. -/
structure EC2GroupIdentifier where
  GroupName : Option String
  GroupId : Option String
deriving DecidableEq

/-- Model of `*ec2.InstanceState` contents. -/
structure EC2InstanceState where
  Code : Option Int
  Name : Option String
deriving DecidableEq

/-- Model of `*ec2.Instance`: the fields read by `Instance.set` and
`Instances.set`.  Pointer fields are `Option`; nilable slices are
`Option (List _)`. -/
structure EC2Instance where
  EbsOptimized : Option Bool
  IamInstanceProfile : Option EC2IamInstanceProfile
  ImageId : Option String
  InstanceId : Option String
  InstanceType : Option String
  KeyName : Option String
  Monitoring : Option EC2Monitoring
  SecurityGroups : Option (List EC2GroupIdentifier)
  SourceDestCheck : Option Bool
  State : Option EC2InstanceState
  SubnetId : Option String
  VpcId : Option String
  Tags : Option (List EC2Tag)
deriving DecidableEq

/-- Embedding of the mapped `Instance` struct (helper.go lines 164-177).
`Tags` is `map[*string]*string`: an association list keyed by pointer. -/
structure Instance where
  EbsOptimized : Option Bool
  IamInstanceProfile : Option String
  ImageID : Option String
  InstanceID : Option String
  InstanceType : Option String
  KeyName : Option String
  Monitoring : Option Bool
  SecurityGroups : List (Option String)
  SourceDestCheck : Option Bool
  SubnetID : Option String
  VpcID : Option String
  Tags : Option (List (Option StrPtr × Option StrPtr))
deriving DecidableEq

/-- Go pointer equality on `*string` map keys: nil equals nil, non-nil
pointers are equal exactly when their addresses coincide. -/
def ptrEq : Option StrPtr → Option StrPtr → Bool
  | none, none => true
  | some p, some q => p.addr == q.addr
  | _, _ => false

/-- Go map assignment `m[k] = v` on a `map[*string]*string`, embedded on
the association list: replace the entry whose key is pointer-equal to
`k`, or append a fresh entry. -/
def mapAssign (m : List (Option StrPtr × Option StrPtr))
    (k v : Option StrPtr) : List (Option StrPtr × Option StrPtr) :=
  if m.any (fun e => ptrEq e.1 k) then
    m.map (fun e => if ptrEq e.1 k then (k, v) else e)
  else m ++ [(k, v)]

/-- Model of `strings.Split` with a one-character separator, on the
character list of the string: splits at every occurrence of `c`. -/
def splitOnChar (c : Char) : List Char → List (List Char)
  | [] => [[]]
  | x :: xs =>
    match splitOnChar c xs with
    | [] => [[]]
    | h :: t => if x = c then [] :: h :: t else (x :: h) :: t

/-- `strings.Split(s, sep)` for a one-character separator. -/
def stringsSplit (c : Char) (s : String) : List String :=
  (splitOnChar c s.data).map (fun cs => String.mk cs)

/-- `tmp[len(tmp)-1]`: the last element of a (never empty) split result. -/
def lastToken (l : List String) : String := l.getLast?.getD ""

/-- The zero value `Instance{}`. -/
def zeroInstance : Instance :=
  { EbsOptimized := none, IamInstanceProfile := none, ImageID := none,
    InstanceID := none, InstanceType := none, KeyName := none,
    Monitoring := none, SecurityGroups := [], SourceDestCheck := none,
    SubnetID := none, VpcID := none, Tags := none }

/-- Embedding of `Instance.set` (helper.go lines 182-220).  The receiver
is the freshly allocated zero `Instance`; the function returns the filled
struct, or `none` when the source's `Monitoring` pointer is nil, since
line 194 dereferences `src.Monitoring.State` unconditionally and panics
there. -/
def Instance.set (src : EC2Instance) : Option Instance :=
  match src.Monitoring with
  | none => none
  | some mon =>
    some
      { EbsOptimized := src.EbsOptimized
        IamInstanceProfile :=
          match src.IamInstanceProfile with
          | none => none
          | some prof =>
            match prof.Arn with
            | none => none
            | some arn => some (lastToken (stringsSplit '/' (stringValue (some arn))))
        ImageID := src.ImageId
        InstanceID := src.InstanceId
        InstanceType := src.InstanceType
        KeyName := src.KeyName
        Monitoring :=
          if stringValue mon.State = "disabled" then some false else some true
        SecurityGroups :=
          match src.SecurityGroups with
          | none => []
          | some sgs => sgs.map (fun sg => sg.GroupName)
        SourceDestCheck := src.SourceDestCheck
        SubnetID := src.SubnetId
        VpcID := src.VpcId
        Tags :=
          match src.Tags with
          | none => none
          | some ts => some (ts.foldl (fun m t => mapAssign m t.Key t.Value) []) }

/-- The state code of a source instance (`aws.Int64Value(v.State.Code)`),
total for specification purposes: reads `0` when `State` is nil. -/
def stateCode (v : EC2Instance) : Int :=
  int64Value ((v.State.getD { Code := none, Name := none }).Code)

/-- Total version of the mapping for retained instances, used on the
specification side; only applied where `Instance.set` succeeds. -/
def mapInstance (v : EC2Instance) : Instance :=
  (Instance.set v).getD zeroInstance

/-- The loop body of `Instances.set` (helper.go lines 227-237) over a
non-nil source slice: skips state code 48, maps and appends the rest.
Returns `none` on a panic: `v.State.Code` dereferences a nil `State`
(line 230), and `tmp.set(v)` dereferences a nil `Monitoring`. -/
def Instances.setLoop : List EC2Instance → List Instance → Option (List Instance)
  | [], acc => some acc
  | v :: rest, acc =>
    match v.State with
    | none => none
    | some st =>
      if int64Value st.Code = 48 then Instances.setLoop rest acc
      else
        match Instance.set v with
        | none => none
        | some tmp => Instances.setLoop rest (acc ++ [tmp])

/-- Embedding of `Instances.set` (helper.go lines 222-238): a nil source
slice returns immediately, otherwise the loop runs over the elements.
`acc` is the receiver slice's current contents. -/
def Instances.set (acc : List Instance) (src : Option (List EC2Instance)) :
    Option (List Instance) :=
  match src with
  | none => some acc
  | some l => Instances.setLoop l acc

/-- An instance that maps cleanly: its `State` pointer is non-nil, and if
it is not terminated (so `Instance.set` runs on it) its `Monitoring`
pointer is non-nil.  Under this condition the `Instances.set` loop cannot
panic on it. -/
def cleanInst (v : EC2Instance) : Bool :=
  v.State.isSome && (stateCode v == 48 || v.Monitoring.isSome)

/-- Specification-side description of what the `Instances.set` loop
appends: the non-terminated instances, in order, mapped by
`Instance.set`. -/
def retained (l : List EC2Instance) : List Instance :=
  (l.filter (fun v => !(stateCode v == 48))).map mapInstance

/-- Model of `*ec2.Reservation`: the field read by `GetInstances`. -/
structure Reservation where
  Instances : Option (List EC2Instance)
deriving DecidableEq

/-- Model of `*ec2.DescribeInstancesOutput`. -/
structure DescribeInstancesOutput where
  Reservations : List Reservation
  NextToken : Option String

/-- The inner loop of `GetInstances` over one page's reservations
(helper.go lines 252-254): `instances.set(rsv.Instances)` per
reservation, threading the accumulated slice. -/
def goReservations : List Reservation → List Instance → Option (List Instance)
  | [], acc => some acc
  | r :: rs, acc =>
    match Instances.set acc r.Instances with
    | none => none
    | some acc2 => goReservations rs acc2

/-- The `for` loop of `GetInstances` (helper.go lines 246-263), with the
`DescribeInstances` call abstracted as a function of the continuation
token.  `fuel` bounds the number of iterations; the outer `Option` is
`none` when the loop would still be running at that bound or a panic
occurred inside `Instances.set`.  An API error returns `(nil, err)`,
embedded as `Except.error` carrying no instances. -/
def GetInstancesLoop (api : Option String → Except GoError DescribeInstancesOutput) :
    Nat → Option String → List Instance → Option (Except GoError (List Instance))
  | 0, _, _ => none
  | fuel + 1, tok, acc =>
    match api tok with
    | .error e => some (.error e)
    | .ok out =>
      match goReservations out.Reservations acc with
      | none => none
      | some acc2 =>
        match out.NextToken with
        | some t => GetInstancesLoop api fuel (some t) acc2
        | none => some (.ok acc2)

/-- Embedding of `AWSClient.GetInstances` (helper.go lines 241-266):
start with an empty `Instances` collection and no token. -/
def AWSClient.GetInstances
    (api : Option String → Except GoError DescribeInstancesOutput) (fuel : Nat) :
    Option (Except GoError (List Instance)) :=
  GetInstancesLoop api fuel none []

/-- Specification-side page chain: following continuation tokens from
`tok`, the API yields these pages; the second component is `some e` when
the chain ends in an API error instead of a token-free page.  `none`
means the chain does not finish within `fuel` calls. -/
def fetchPages (api : Option String → Except GoError DescribeInstancesOutput) :
    Nat → Option String → Option (List DescribeInstancesOutput × Option GoError)
  | 0, _ => none
  | fuel + 1, tok =>
    match api tok with
    | .error e => some ([], some e)
    | .ok out =>
      match out.NextToken with
      | none => some ([out], none)
      | some t =>
        match fetchPages api fuel (some t) with
        | none => none
        | some (ps, res) => some (out :: ps, res)

/-- The retained, mapped instances contributed by one page: all its
reservations' non-terminated instances in order. -/
def pageRetained (p : DescribeInstancesOutput) : List Instance :=
  p.Reservations.flatMap (fun r => retained (r.Instances.getD []))

/-- Every instance on the page maps cleanly (no panic in the loop). -/
def cleanPage (p : DescribeInstancesOutput) : Bool :=
  p.Reservations.all (fun r => (r.Instances.getD []).all cleanInst)

/-! VPC side. -/

/-- Model of `*ec2.AttributeBooleanValue`. -/
structure AttributeBooleanValue where
  Value : Option Bool
deriving DecidableEq

/-- Model of `*ec2.DescribeVpcAttributeOutput`: the two fields read by
`setVPCAttribute`, each a nilable pointer. -/
structure DescribeVpcAttributeOutput where
  EnableDnsHostnames : Option AttributeBooleanValue
  EnableDnsSupport : Option AttributeBooleanValue
deriving DecidableEq

/-- Model of one entry of `DescribeVpcClassicLinkOutput.Vpcs`. -/
structure VpcClassicLink where
  VpcId : Option String
  ClassicLinkEnabled : Option Bool
deriving DecidableEq

/-- Model of `*ec2.DescribeVpcClassicLinkOutput`. -/
structure DescribeVpcClassicLinkOutput where
  Vpcs : List VpcClassicLink
deriving DecidableEq

/-- Model of one entry of `DescribeVpcClassicLinkDnsSupportOutput.Vpcs`. -/
structure VpcClassicLinkDns where
  VpcId : Option String
  ClassicLinkDnsSupported : Option Bool
deriving DecidableEq

/-- Model of `*ec2.DescribeVpcClassicLinkDnsSupportOutput`. -/
structure DescribeVpcClassicLinkDnsSupportOutput where
  Vpcs : List VpcClassicLinkDns
deriving DecidableEq

/-- Model of `*ec2.Vpc`: the fields read by `GetVPCs`.  Only the length
of `Ipv6CidrBlockAssociationSet` is inspected, so it is embedded as the
association count. -/
structure EC2Vpc where
  CidrBlock : Option String
  InstanceTenancy : Option String
  VpcId : Option String
  Tags : Option (List EC2Tag)
  Ipv6CidrBlockAssociationSet : Nat
deriving DecidableEq

/-- Model of `*ec2.DescribeVpcsOutput`. -/
structure DescribeVpcsOutput where
  Vpcs : List EC2Vpc
deriving DecidableEq

/-- Modelled from the spec: the `Tags` type and its `setTags` method are
declared outside the provided sources (only their callers appear in
helper.go); the spec describes the mapping as "decoding tag lists into a
key-value mapping", embedded as the list of present key/value texts. -/
def setTags (src : Option (List EC2Tag)) : List (String × String) :=
  (src.getD []).map (fun t =>
    (stringValue (t.Key.map (fun p => p.val)),
     stringValue (t.Value.map (fun p => p.val))))

/-- Embedding of the mapped `VPC` struct (helper.go lines 319-336). -/
structure VPC where
  CIDRBlock : Option String
  InstanceTenancy : Option String
  Tags : Option (List (String × String))
  VPCId : Option String
  AssignGeneratedIPv6CIDRBlock : Option Bool
  EnableDnsHostnames : Option Bool
  EnableDnsSupport : Option Bool
  EnableClassicLink : Option Bool
  EnableClassicLinkDnsSupport : Option Bool
deriving DecidableEq

/-- The EC2 API surface used by `GetVPCs`, abstracted as values and a
function of (vpc id, attribute name). -/
structure VpcApi where
  describeVpcs : Except GoError DescribeVpcsOutput
  describeVpcClassicLink : Except GoError DescribeVpcClassicLinkOutput
  describeVpcClassicLinkDnsSupport : Except GoError DescribeVpcClassicLinkDnsSupportOutput
  describeVpcAttribute : Option String → String → Except GoError DescribeVpcAttributeOutput

/-- The classic-link lookup loop (helper.go lines 362-367): the first
entry whose `VpcId` string value matches sets the field and breaks;
otherwise the current value is kept. -/
def lookupClassicLink : List VpcClassicLink → Option String → Option Bool → Option Bool
  | [], _, cur => cur
  | c :: rest, id, cur =>
    if stringValue c.VpcId = stringValue id then c.ClassicLinkEnabled
    else lookupClassicLink rest id cur

/-- The classic-link-DNS lookup loop (helper.go lines 370-375). -/
def lookupClassicLinkDns : List VpcClassicLinkDns → Option String → Option Bool → Option Bool
  | [], _, cur => cur
  | c :: rest, id, cur =>
    if stringValue c.VpcId = stringValue id then c.ClassicLinkDnsSupported
    else lookupClassicLinkDns rest id cur

/-- Embedding of `AWSClient.setVPCAttribute` (helper.go lines 340-378):
two `DescribeVpcAttribute` calls whose outputs are dereferenced without a
nil check (`output.EnableDnsHostnames.Value`, `output.EnableDnsSupport.Value`
— the outer `Option` is `none` on that panic), then the two pure lookup
loops. -/
def setVPCAttribute (api : VpcApi) (vpc : VPC)
    (classicLink : DescribeVpcClassicLinkOutput)
    (classicLinkDnsSupport : DescribeVpcClassicLinkDnsSupportOutput) :
    Option (Except GoError VPC) :=
  match api.describeVpcAttribute vpc.VPCId "enableDnsHostnames" with
  | .error e => some (.error e)
  | .ok out1 =>
    match out1.EnableDnsHostnames with
    | none => none
    | some a1 =>
      let vpc1 := { vpc with EnableDnsHostnames := a1.Value }
      match api.describeVpcAttribute vpc1.VPCId "enableDnsSupport" with
      | .error e => some (.error e)
      | .ok out2 =>
        match out2.EnableDnsSupport with
        | none => none
        | some a2 =>
          let vpc2 := { vpc1 with EnableDnsSupport := a2.Value }
          let vpc3 := { vpc2 with
            EnableClassicLink :=
              lookupClassicLink classicLink.Vpcs vpc2.VPCId vpc2.EnableClassicLink }
          some (.ok { vpc3 with
            EnableClassicLinkDnsSupport :=
              lookupClassicLinkDns classicLinkDnsSupport.Vpcs vpc3.VPCId
                vpc3.EnableClassicLinkDnsSupport })

/-- The per-VPC construction in the `GetVPCs` loop body (helper.go lines
399-410): field copies, tag decoding, and the IPv6 flag set only when the
association set is non-empty. -/
def mkVPC (v : EC2Vpc) : VPC :=
  { CIDRBlock := v.CidrBlock, InstanceTenancy := v.InstanceTenancy,
    Tags := some (setTags v.Tags), VPCId := v.VpcId,
    AssignGeneratedIPv6CIDRBlock :=
      if 0 < v.Ipv6CidrBlockAssociationSet then some true else none,
    EnableDnsHostnames := none, EnableDnsSupport := none,
    EnableClassicLink := none, EnableClassicLinkDnsSupport := none }

/-- The `for` loop of `GetVPCs` over `basicInfo.Vpcs` (helper.go lines
398-417): build each VPC, run `setVPCAttribute`, abort the whole fetch on
its error pair, append on success. -/
def GetVPCsLoop (api : VpcApi) (classicLink : DescribeVpcClassicLinkOutput)
    (classicLinkDnsSupport : DescribeVpcClassicLinkDnsSupportOutput) :
    List EC2Vpc → List VPC → Option (Except GoError (List VPC))
  | [], acc => some (.ok acc)
  | v :: rest, acc =>
    match setVPCAttribute api (mkVPC v) classicLink classicLinkDnsSupport with
    | none => none
    | some (.error e) => some (.error e)
    | some (.ok vpc2) => GetVPCsLoop api classicLink classicLinkDnsSupport rest (acc ++ [vpc2])

/-- Embedding of `AWSClient.GetVPCs` (helper.go lines 380-420): the three
up-front describe calls, each aborting with `(nil, err)` on failure, then
the per-VPC loop. -/
def AWSClient.GetVPCs (api : VpcApi) : Option (Except GoError (List VPC)) :=
  match api.describeVpcs with
  | .error e => some (.error e)
  | .ok basicInfo =>
    match api.describeVpcClassicLink with
    | .error e => some (.error e)
    | .ok classicLink =>
      match api.describeVpcClassicLinkDnsSupport with
      | .error e => some (.error e)
      | .ok classicLinkDnsSupport =>
        GetVPCsLoop api classicLink classicLinkDnsSupport basicInfo.Vpcs []

/-- Specification side for the error claim: the error of the first failed
`DescribeVpcAttribute` call in the per-VPC sequence, if any (each VPC
issues the `enableDnsHostnames` call and then the `enableDnsSupport`
call). -/
def attrCallError (api : VpcApi) (id : Option String) : Option GoError :=
  match api.describeVpcAttribute id "enableDnsHostnames" with
  | .error e => some e
  | .ok _ =>
    match api.describeVpcAttribute id "enableDnsSupport" with
    | .error e => some e
    | .ok _ => none

/-- First attribute-call error over a list of VPC ids. -/
def firstAttrError (api : VpcApi) : List (Option String) → Option GoError
  | [] => none
  | id :: rest =>
    match attrCallError api id with
    | some e => some e
    | none => firstAttrError api rest

/-- Specification side: the first error the `GetVPCs` call sequence
encounters, in call order. -/
def firstVpcError (api : VpcApi) : Option GoError :=
  match api.describeVpcs with
  | .error e => some e
  | .ok basicInfo =>
    match api.describeVpcClassicLink with
    | .error e => some e
    | .ok _ =>
      match api.describeVpcClassicLinkDnsSupport with
      | .error e => some e
      | .ok _ => firstAttrError api (basicInfo.Vpcs.map (fun v => v.VpcId))

/-- Every successful `DescribeVpcAttribute` response carries both
attribute pointers, so `setVPCAttribute` cannot panic. -/
def vpcsWellFormed (api : VpcApi) : Prop :=
  ∀ id attr out, api.describeVpcAttribute id attr = .ok out →
    out.EnableDnsHostnames.isSome ∧ out.EnableDnsSupport.isSome

/-! Rendering.  `Instances.WriteHCL` (helper.go lines 269-316) executes a
fixed `text/template`.  Template conditionals `if .Field` on pointer
fields test the pointer for nil (never the pointed-to value); on slices
and maps they test for non-zero length.  Printing a `*string` prints the
pointed-to string, and prints the literal text <nil> for a nil pointer —
the `ami`, `instance_type` and resource-name substitutions are not
guarded by a conditional.  Each definition below produces the logical
lines of one template section, in template order. -/

/-- Template printing of a `*string` value. -/
def printPtr : Option String → String
  | none => "<nil>"
  | some s => s

/-- Template printing of a `*bool` value (dereferenced). -/
def goBool : Bool → String
  | true => "true"
  | false => "false"

/-- Template printing of a `*string` tag key or value. -/
def printTagPtr : Option StrPtr → String
  | none => "<nil>"
  | some p => p.val

/-- The resource header line: `resource "aws_instance" "ID_instance" {`. -/
def headerLine (i : Instance) : String :=
  "resource \"aws_instance\" \"" ++ printPtr i.InstanceID ++ "_instance\" \x7b"

/-- The unconditional `ami` line. -/
def amiLine (i : Instance) : String :=
  "ami = \"" ++ printPtr i.ImageID ++ "\""

/-- The unconditional `instance_type` line. -/
def instanceTypeLine (i : Instance) : String :=
  "instance_type = \"" ++ printPtr i.InstanceType ++ "\""

/-- Section guarded by `if .EbsOptimized` (nil test on the pointer). -/
def ebsSeg (i : Instance) : List String :=
  match i.EbsOptimized with
  | none => []
  | some b => ["ebs_optimized = " ++ goBool b]

/-- Section guarded by `if .IamInstanceProfile`. -/
def iamSeg (i : Instance) : List String :=
  match i.IamInstanceProfile with
  | none => []
  | some s => ["iam_instance_profile = \"" ++ s ++ "\""]

/-- Section guarded by `if .KeyName`. -/
def keySeg (i : Instance) : List String :=
  match i.KeyName with
  | none => []
  | some s => ["key_name = \"" ++ s ++ "\""]

/-- Section guarded by `if .Monitoring` (nil test, not the boolean). -/
def monSeg (i : Instance) : List String :=
  match i.Monitoring with
  | none => []
  | some b => ["monitoring = " ++ goBool b]

/-- Section guarded by `if .SourceDestCheck`. -/
def sdcSeg (i : Instance) : List String :=
  match i.SourceDestCheck with
  | none => []
  | some b => ["source_dest_check = " ++ goBool b]

/-- Section guarded by `if .SubnetID`. -/
def subnetSeg (i : Instance) : List String :=
  match i.SubnetID with
  | none => []
  | some s => ["subnet_id = \"" ++ s ++ "\""]

/-- Section guarded by `if .SecurityGroups` (length test on the slice):
`StringValueSlice` then the `joinstring ","` helper. -/
def sgSeg (i : Instance) : List String :=
  match i.SecurityGroups with
  | [] => []
  | sgs =>
    ["vpc_security_group_ids = [" ++
      (joinStringSlice "," (sgs.map stringValue)).1 ++ "]"]

/-- One rendered tag entry line. -/
def tagLine (e : Option StrPtr × Option StrPtr) : String :=
  "\"" ++ printTagPtr e.1 ++ "\" = \"" ++ printTagPtr e.2 ++ "\""

/-- Section guarded by `if .Tags` (length test on the map).  Go iterates
the map in an internal key order; the entry order is abstracted here and
is irrelevant to the stated claims. -/
def tagsSeg (i : Instance) : List String :=
  match i.Tags with
  | none => []
  | some [] => []
  | some ts => ["tags \x7b"] ++ ts.map tagLine ++ ["\x7d"]

/-- The lines of one rendered `aws_instance` block, in template order. -/
def renderInstance (i : Instance) : List String :=
  List.flatten
    [[headerLine i, amiLine i, instanceTypeLine i],
     ebsSeg i, iamSeg i, keySeg i, monSeg i, sdcSeg i, subnetSeg i,
     sgSeg i, tagsSeg i, ["\x7d"]]

/-- Embedding of `Instances.WriteHCL`: one block per instance in order
(the top-level `if .` tests the collection pointer, always non-nil). -/
def Instances.WriteHCL (l : List Instance) : List String :=
  l.flatMap renderInstance

/-- The rendered text contains no line for the attribute `attr`: no line
starts with the attribute name followed by a space. -/
def noAttrLine (attr : String) (lines : List String) : Prop :=
  ∀ l ∈ lines, ¬ (attr ++ " ").data <+: l.data

/-! Concrete inputs used to evaluate the claims. -/

/-- A source instance with every optional field absent: only the
`Monitoring` struct (needed to avoid the panic) and the `State` are
present. -/
def srcBare : EC2Instance :=
  { EbsOptimized := none, IamInstanceProfile := none, ImageId := none,
    InstanceId := none, InstanceType := none, KeyName := none,
    Monitoring := some { State := some "enabled" }, SecurityGroups := none,
    SourceDestCheck := none,
    State := some { Code := some 16, Name := some "running" },
    SubnetId := none, VpcId := none, Tags := none }

/-- What `Instance.set` produces from `srcBare`. -/
def instBare : Instance :=
  { zeroInstance with Monitoring := some true }

/-- A terminated source instance (state code 48, `Monitoring` nil). -/
def src48 : EC2Instance :=
  { srcBare with
    State := some { Code := some 48, Name := some "terminated" },
    Monitoring := none }

/-- A source instance whose monitoring state is `"disabled"`. -/
def srcDisabled : EC2Instance :=
  { srcBare with Monitoring := some { State := some "disabled" } }

/-- A source instance carrying the spec's example instance-profile ARN. -/
def srcC6 : EC2Instance :=
  { srcBare with
    IamInstanceProfile :=
      some { Arn := some "arn:aws:iam::123456789012:instance-profile/myprofile" } }

/-- A source instance with two tags whose key strings are equal text but
live at distinct addresses. -/
def srcTags : EC2Instance :=
  { srcBare with
    Tags := some
      [{ Key := some { addr := 0, val := "Name" },
         Value := some { addr := 10, val := "a" } },
       { Key := some { addr := 1, val := "Name" },
         Value := some { addr := 11, val := "b" } }] }

/-- A mocked `DescribeInstances` API returning two pages linked by the
token `"page2"`. -/
def api2 : Option String → Except GoError DescribeInstancesOutput :=
  fun tok =>
    match tok with
    | none =>
      .ok { Reservations := [{ Instances := some [srcBare, src48] }],
            NextToken := some "page2" }
    | some "page2" =>
      .ok { Reservations := [{ Instances := some [srcBare] }], NextToken := none }
    | some _ => .error (.generic "unknown token")

/-- A mocked `DescribeInstances` API that fails on the first call. -/
def apiFail : Option String → Except GoError DescribeInstancesOutput :=
  fun _ => .error (.awsErr "RequestLimitExceeded" "boom")

/-- A mocked VPC API whose `DescribeVpcs` call fails; attribute calls,
never reached, would answer well-formed outputs. -/
def vpcApiFail : VpcApi :=
  { describeVpcs := .error (.awsErr "UnauthorizedOperation" "vpcboom"),
    describeVpcClassicLink := .ok { Vpcs := [] },
    describeVpcClassicLinkDnsSupport := .ok { Vpcs := [] },
    describeVpcAttribute := fun _ _ =>
      .ok { EnableDnsHostnames := some { Value := some true },
            EnableDnsSupport := some { Value := some true } } }

/-! Theorems. -/

/-- A list cannot begin with `p` when `p` and the prefix `a` disagree:
if `p` is not a prefix of `a` and `a` is not a prefix of `p`, then `p` is
not a prefix of `a ++ x` for any continuation `x`. -/
theorem not_prefix_append_of {p a : List Char} (x : List Char)
    (h1 : ¬ p <+: a) (h2 : ¬ a <+: p) : ¬ p <+: a ++ x := by
  intro h
  have hor := List.prefix_or_prefix_of_prefix h (List.prefix_append a x)
  exact hor.elim h1 h2

theorem noAttrLine_nil (a : String) : noAttrLine a [] := by
  intro l hl
  exact absurd hl (List.not_mem_nil l)

theorem noAttrLine_cons {a : String} {l : String} {ls : List String}
    (h : ¬ (a ++ " ").data <+: l.data) (hs : noAttrLine a ls) :
    noAttrLine a (l :: ls) := by
  intro x hx
  rcases List.mem_cons.mp hx with rfl | hx
  · exact h
  · exact hs x hx

theorem noAttrLine_flatten {a : String} {segs : List (List String)}
    (h : ∀ seg ∈ segs, noAttrLine a seg) : noAttrLine a segs.flatten := by
  intro l hl
  rcases List.mem_flatten.mp hl with ⟨seg, hseg, hmem⟩
  exact h seg hseg l hmem

/-- C2: a provider error with one of the six allow-listed codes is
translated to `nil` by `handleError`; every other error — a provider
error with any other code, or a non-provider error — is returned
unchanged. -/
theorem C2_handleError_allowlist :
    (∀ code msg, code ∈ allowedCodes → handleError (.awsErr code msg) = none) ∧
    (∀ code msg, code ∉ allowedCodes →
      handleError (.awsErr code msg) = some (.awsErr code msg)) ∧
    (∀ msg, handleError (.generic msg) = some (.generic msg)) := by
  refine ⟨?_, ?_, ?_⟩
  · intro code msg hc
    simp only [allowedCodes, List.mem_cons, List.not_mem_nil, or_false] at hc
    rcases hc with rfl | rfl | rfl | rfl | rfl | rfl <;> rfl
  · intro code msg hc
    simp only [allowedCodes, List.mem_cons, List.not_mem_nil, or_false] at hc
    push_neg at hc
    simp only [handleError]
    split <;> simp_all
  · intro msg
    rfl

theorem C2_witness :
    handleError (.awsErr "NoSuchBucketPolicy" "m") = none ∧
    handleError (.awsErr "AccessDenied" "m") =
      some (.awsErr "AccessDenied" "m") ∧
    handleError (.generic "m") = some (.generic "m") :=
  ⟨C2_handleError_allowlist.1 _ _ (by decide),
   C2_handleError_allowlist.2.1 _ _ (by decide),
   C2_handleError_allowlist.2.2 _⟩

/-- C9: `Instance.set` completes exactly when the source's `Monitoring`
pointer is non-nil; with `Monitoring` nil it panics (line 194
dereferences `src.Monitoring.State` unconditionally), so no mapped struct
with an unset `Monitoring` field is ever produced. -/
theorem C9_set_panics_iff_monitoring_nil :
    ∀ src : EC2Instance, (Instance.set src).isSome ↔ src.Monitoring.isSome := by
  intro src
  cases h : src.Monitoring <;> simp [Instance.set, h]

/-- C10: `joinStringSlice` rewrites every element of the caller's slice
to its quoted form in place (the returned final slice contents equal the
quoted originals), in addition to returning the separator-joined quoted
elements. -/
theorem C10_joinStringSlice_mutates :
    ∀ (sep : String) (src : List String),
      (joinStringSlice sep src).2 = src.map quote ∧
      (joinStringSlice sep src).1 = String.intercalate sep (src.map quote) := by
  have hq : ∀ src : List String, quoteLoop src = src.map quote := by
    intro src
    induction src with
    | nil => rfl
    | cons v rest ih => simp [quoteLoop, ih]
  intro sep src
  simp [joinStringSlice, hq]

/-- C5: `Instance.set` maps a monitoring state string equal to
`"disabled"` to the boolean `false`, and any other monitoring state value
(including an absent state string, read as `""`) to `true`. -/
theorem C5_monitoring_bool :
    ∀ (src : EC2Instance) (mon : EC2Monitoring), src.Monitoring = some mon →
      ∃ i, Instance.set src = some i ∧
        (stringValue mon.State = "disabled" → i.Monitoring = some false) ∧
        (stringValue mon.State ≠ "disabled" → i.Monitoring = some true) := by
  intro src mon h
  simp only [Instance.set, h]
  refine ⟨_, rfl, ?_, ?_⟩
  · intro hd
    simp [hd]
  · intro hd
    simp [hd]

theorem C5_witness :
    ∃ i, Instance.set srcDisabled = some i ∧ i.Monitoring = some false := by
  obtain ⟨i, hset, hdis, _⟩ :=
    C5_monitoring_bool srcDisabled { State := some "disabled" } rfl
  exact ⟨i, hset, hdis (by decide)⟩

/-- C7: the tag mapping is keyed by pointer identity: two source tags
whose key strings are equal text but held at distinct addresses produce
two separate entries in the mapped `Tags` map. -/
theorem C7_tags_ref_identity :
    ∀ (src : EC2Instance) (mon : EC2Monitoring) (a1 a2 : Nat) (s : String)
      (v1 v2 : Option StrPtr),
      src.Monitoring = some mon →
      src.Tags = some [{ Key := some { addr := a1, val := s }, Value := v1 },
                       { Key := some { addr := a2, val := s }, Value := v2 }] →
      a1 ≠ a2 →
      ∃ i ts, Instance.set src = some i ∧ i.Tags = some ts ∧ ts.length = 2 := by
  intro src mon a1 a2 s v1 v2 hm ht hne
  have hne' : (a1 == a2) = false := by
    exact beq_eq_false_iff_ne.mpr hne
  simp only [Instance.set, hm]
  refine ⟨_, [(some { addr := a1, val := s }, v1),
              (some { addr := a2, val := s }, v2)], rfl, ?_, rfl⟩
  simp only [ht]
  simp [mapAssign, ptrEq, hne']

theorem C7_witness :
    ∃ i ts, Instance.set srcTags = some i ∧ i.Tags = some ts ∧ ts.length = 2 :=
  C7_tags_ref_identity srcTags { State := some "enabled" } 0 1 "Name"
    (some { addr := 10, val := "a" }) (some { addr := 11, val := "b" })
    rfl rfl (by decide)

/-! Lemmas about the single-character split used for the ARN short name. -/

theorem splitOnChar_ne_nil (c : Char) (l : List Char) : splitOnChar c l ≠ [] := by
  induction l with
  | nil => simp [splitOnChar]
  | cons x xs ih =>
    simp only [splitOnChar]
    cases h : splitOnChar c xs with
    | nil => simp
    | cons hd tl => by_cases hx : x = c <;> simp [hx]

theorem splitOnChar_no_sep {c : Char} {b : List Char} (h : c ∉ b) :
    splitOnChar c b = [b] := by
  induction b with
  | nil => rfl
  | cons x xs ih =>
    have hx : ¬ x = c := by
      rintro rfl
      exact h (List.mem_cons_self x xs)
    have hxs : c ∉ xs := fun hc => h (List.mem_cons_of_mem _ hc)
    simp [splitOnChar, ih hxs, hx]

theorem splitOnChar_two_le {c : Char} {l : List Char} (h : c ∈ l) :
    2 ≤ (splitOnChar c l).length := by
  induction l with
  | nil => cases h
  | cons x xs ih =>
    by_cases hx : x = c
    · subst hx
      cases hsp : splitOnChar x xs with
      | nil => exact absurd hsp (splitOnChar_ne_nil _ _)
      | cons hd tl => simp [splitOnChar, hsp]
    · have hxs : c ∈ xs := by
        rcases List.mem_cons.mp h with h' | h'
        · exact absurd h'.symm hx
        · exact h'
      cases hsp : splitOnChar c xs with
      | nil => exact absurd hsp (splitOnChar_ne_nil _ _)
      | cons hd tl =>
        have h2 := ih hxs
        simp only [splitOnChar, hsp, hx, if_false, List.length_cons] at h2 ⊢
        omega

theorem splitOnChar_getLast? {c : Char} :
    ∀ (a b : List Char), c ∉ b →
      (splitOnChar c (a ++ c :: b)).getLast? = some b := by
  intro a
  induction a with
  | nil =>
    intro b hb
    rw [List.nil_append]
    have hstep : splitOnChar c (c :: b) = [[], b] := by
      simp [splitOnChar, splitOnChar_no_sep hb]
    rw [hstep]
    simp
  | cons x a' ih =>
    intro b hb
    have hmem : c ∈ a' ++ c :: b :=
      List.mem_append_right _ (List.mem_cons_self _ _)
    cases hsp : splitOnChar c (a' ++ c :: b) with
    | nil => exact absurd hsp (splitOnChar_ne_nil _ _)
    | cons hd tl =>
      have hlast : (hd :: tl).getLast? = some b := by
        rw [← hsp]
        exact ih b hb
      have hlen : 2 ≤ (hd :: tl).length := by
        rw [← hsp]
        exact splitOnChar_two_le hmem
      have htl : tl ≠ [] := by
        cases tl
        · simp at hlen
        · simp
      have hstep : splitOnChar c ((x :: a') ++ c :: b) =
          if x = c then [] :: hd :: tl else (x :: hd) :: tl := by
        rw [List.cons_append]
        simp only [splitOnChar, hsp]
      rw [hstep]
      by_cases hx : x = c
      · rw [if_pos hx, List.getLast?_cons_cons]
        exact hlast
      · rw [if_neg hx]
        cases tl with
        | nil => exact absurd rfl htl
        | cons t1 ts =>
          rw [List.getLast?_cons_cons]
          rw [List.getLast?_cons_cons] at hlast
          exact hlast

/-- C6: `Instance.set` maps an instance-profile ARN to the segment after
the last `/`: whenever the ARN text splits as `a ++ "/" ++ b` with `b`
free of `/`, the mapped profile name is exactly `b`. -/
theorem C6_arn_short_name :
    ∀ (src : EC2Instance) (mon : EC2Monitoring) (prof : EC2IamInstanceProfile)
      (a b : List Char),
      src.Monitoring = some mon →
      src.IamInstanceProfile = some prof →
      prof.Arn = some (String.mk (a ++ '/' :: b)) →
      '/' ∉ b →
      ∃ i, Instance.set src = some i ∧
        i.IamInstanceProfile = some (String.mk b) := by
  intro src mon prof a b hm hp ha hb
  have hsplit := splitOnChar_getLast? a b hb
  simp only [Instance.set, hm]
  refine ⟨_, rfl, ?_⟩
  simp only [hp, ha]
  simp [lastToken, stringsSplit, stringValue, List.getLast?_map, hsplit]

theorem C6_witness :
    ∃ i, Instance.set srcC6 = some i ∧
      i.IamInstanceProfile = some "myprofile" := by
  obtain ⟨i, hset, hprof⟩ :=
    C6_arn_short_name srcC6 { State := some "enabled" }
      { Arn := some "arn:aws:iam::123456789012:instance-profile/myprofile" }
      ("arn:aws:iam::123456789012:instance-profile".data) ("myprofile".data)
      rfl rfl (by decide) (by decide)
  exact ⟨i, hset, hprof⟩

/-- The `Instances.set` loop appends exactly the non-terminated
instances, mapped, to the receiver. -/
theorem setLoop_ok :
    ∀ (src : List EC2Instance) (acc : List Instance),
      (∀ v ∈ src, cleanInst v = true) →
      Instances.setLoop src acc = some (acc ++ retained src) := by
  intro src
  induction src with
  | nil =>
    intro acc _
    simp [Instances.setLoop, retained]
  | cons v rest ih =>
    intro acc h
    have hv : cleanInst v = true := h v (List.mem_cons_self v rest)
    have hrest : ∀ x ∈ rest, cleanInst x = true :=
      fun x hx => h x (List.mem_cons_of_mem _ hx)
    obtain ⟨st, hst⟩ : ∃ st, v.State = some st := by
      cases hS : v.State
      · rw [cleanInst, hS] at hv
        simp at hv
      · exact ⟨_, rfl⟩
    have hcode : stateCode v = int64Value st.Code := by
      simp [stateCode, hst]
    by_cases h48 : int64Value st.Code = 48
    · have hskip : retained (v :: rest) = retained rest := by
        simp [retained, List.filter_cons, hcode, h48]
      simp only [Instances.setLoop, hst]
      rw [if_pos h48, ih acc hrest, hskip]
    · have hmon : v.Monitoring.isSome = true := by
        have hne : (stateCode v == 48) = false := by
          refine beq_eq_false_iff_ne.mpr ?_
          rw [hcode]
          exact h48
        rw [cleanInst, hne] at hv
        simp at hv
        exact hv.2
      obtain ⟨mon, hM⟩ := Option.isSome_iff_exists.mp hmon
      have htmp : Instance.set v = some ((Instance.set v).getD zeroInstance) := by
        simp [Instance.set, hM]
      have hkeep : retained (v :: rest) = mapInstance v :: retained rest := by
        simp [retained, List.filter_cons, hcode, h48]
      simp only [Instances.setLoop, hst]
      rw [if_neg h48, htmp]
      show Instances.setLoop rest (acc ++ [(Instance.set v).getD zeroInstance]) =
        some (acc ++ retained (v :: rest))
      rw [ih _ hrest, hkeep]
      simp [mapInstance]


/-- C4: `Instances.set` excludes every source instance whose lifecycle
state code equals the terminated code 48 and includes (mapped, in order)
every instance with any other state code: the appended suffix is exactly
the non-terminated instances filtered and mapped. -/
theorem C4_filter_terminated :
    ∀ (src : List EC2Instance) (acc : List Instance),
      (∀ v ∈ src, cleanInst v = true) →
      Instances.set acc (some src) =
        some (acc ++ ((src.filter (fun v => !(stateCode v == 48))).map mapInstance)) := by
  intro src acc h
  exact setLoop_ok src acc h

theorem C4_witness :
    Instances.set [] (some [srcBare, src48]) = some [instBare] := by
  have h := C4_filter_terminated [srcBare, src48] [] (by decide)
  rw [h]
  rfl

/-- One page's reservations are folded into the accumulator exactly as
the concatenation of their retained instances. -/
theorem goReservations_ok :
    ∀ (rs : List Reservation) (acc : List Instance),
      (∀ r ∈ rs, ∀ v ∈ r.Instances.getD [], cleanInst v = true) →
      goReservations rs acc =
        some (acc ++ rs.flatMap (fun r => retained (r.Instances.getD []))) := by
  intro rs
  induction rs with
  | nil =>
    intro acc _
    simp [goReservations]
  | cons r rs' ih =>
    intro acc h
    have hr := h r (List.mem_cons_self r rs')
    have hrs : ∀ r' ∈ rs', ∀ v ∈ r'.Instances.getD [], cleanInst v = true :=
      fun r' hr' => h r' (List.mem_cons_of_mem _ hr')
    cases hI : r.Instances with
    | none =>
      have hset : Instances.set acc r.Instances = some acc := by
        rw [hI]
        rfl
      simp only [goReservations, hset]
      rw [ih acc hrs]
      simp [hI, retained]
    | some l =>
      have hl : ∀ v ∈ l, cleanInst v = true := by
        intro v hv
        have hrv := hr v
        rw [hI] at hrv
        exact hrv hv
      have hset : Instances.set acc r.Instances = some (acc ++ retained l) := by
        rw [hI]
        exact setLoop_ok l acc hl
      simp only [goReservations, hset]
      rw [ih _ hrs]
      simp [hI, List.append_assoc]

theorem cleanPage_forall {p : DescribeInstancesOutput} (h : cleanPage p = true) :
    ∀ r ∈ p.Reservations, ∀ v ∈ r.Instances.getD [], cleanInst v = true := by
  intro r hr v hv
  have h1 := List.all_eq_true.mp h r hr
  exact List.all_eq_true.mp h1 v hv

theorem fetchPages_step_err {api : Option String → Except GoError DescribeInstancesOutput}
    {tok : Option String} {e : GoError} (n : Nat) (h : api tok = .error e) :
    fetchPages api (n + 1) tok = some ([], some e) := by
  rw [fetchPages, h]

theorem fetchPages_step_ok {api : Option String → Except GoError DescribeInstancesOutput}
    {tok : Option String} {out : DescribeInstancesOutput} (n : Nat)
    (h : api tok = .ok out) :
    fetchPages api (n + 1) tok =
      match out.NextToken with
      | none => some ([out], none)
      | some t =>
        match fetchPages api n (some t) with
        | none => none
        | some (ps, res) => some (out :: ps, res) := by
  rw [fetchPages, h]

/-- The `GetInstances` loop refines the page chain: if following the
tokens from `tok` yields `pages` and then either a token-free page or an
API error, the loop returns the accumulated retained instances of all
the pages, or that error, respectively. -/
theorem getInstancesLoop_spec :
    ∀ (api : Option String → Except GoError DescribeInstancesOutput)
      (fuel : Nat) (tok : Option String) (acc : List Instance)
      (pages : List DescribeInstancesOutput) (res : Option GoError),
      fetchPages api fuel tok = some (pages, res) →
      pages.all cleanPage = true →
      GetInstancesLoop api fuel tok acc =
        some (match res with
              | none => .ok (acc ++ pages.flatMap pageRetained)
              | some e => .error e) := by
  intro api fuel
  induction fuel with
  | zero =>
    intro tok acc pages res hfp _
    simp [fetchPages] at hfp
  | succ n ih =>
    intro tok acc pages res hfp hclean
    cases hapi : api tok with
    | error e =>
      rw [fetchPages_step_err n hapi] at hfp
      simp only [Option.some.injEq, Prod.mk.injEq] at hfp
      obtain ⟨rfl, rfl⟩ := hfp
      simp [GetInstancesLoop, hapi]
    | ok out =>
      rw [fetchPages_step_ok n hapi] at hfp
      cases hnt : out.NextToken with
      | none =>
        rw [hnt] at hfp
        simp only [Option.some.injEq, Prod.mk.injEq] at hfp
        obtain ⟨rfl, rfl⟩ := hfp
        have hco : cleanPage out = true := by
          simp [List.all_cons] at hclean
          exact hclean
        have hgo := goReservations_ok out.Reservations acc (cleanPage_forall hco)
        simp only [GetInstancesLoop, hapi, hgo, hnt]
        simp [pageRetained]
      | some t =>
        rw [hnt] at hfp
        have hfp' :
            (match fetchPages api n (some t) with
             | none => none
             | some (ps, res) => some (out :: ps, res)) = some (pages, res) := hfp
        cases hfp2 : fetchPages api n (some t) with
        | none =>
          rw [hfp2] at hfp'
          simp at hfp'
        | some pr =>
          obtain ⟨ps, res'⟩ := pr
          rw [hfp2] at hfp'
          simp only [Option.some.injEq, Prod.mk.injEq] at hfp'
          obtain ⟨rfl, rfl⟩ := hfp'
          rw [List.all_cons, Bool.and_eq_true] at hclean
          obtain ⟨hco, hcps⟩ := hclean
          have hgo : goReservations out.Reservations acc =
              some (acc ++ pageRetained out) :=
            goReservations_ok out.Reservations acc (cleanPage_forall hco)
          simp only [GetInstancesLoop, hapi, hgo, hnt]
          rw [ih (some t) (acc ++ pageRetained out) ps res' hfp2 hcps]
          cases res' <;> simp [pageRetained, List.append_assoc]

/-- C3: when the API returns a chain of N successful pages linked by
continuation tokens (last page token-free) whose instances map cleanly,
`GetInstances` returns exactly the concatenation, in order, of the
retained instances of all N pages' reservations — no duplicates, no
omissions. -/
theorem C3_pagination_concat :
    ∀ (api : Option String → Except GoError DescribeInstancesOutput)
      (fuel : Nat) (pages : List DescribeInstancesOutput),
      fetchPages api fuel none = some (pages, none) →
      pages.all cleanPage = true →
      AWSClient.GetInstances api fuel =
        some (.ok (pages.flatMap pageRetained)) := by
  intro api fuel pages hfp hclean
  have h := getInstancesLoop_spec api fuel none [] pages none hfp hclean
  simpa [AWSClient.GetInstances] using h

theorem C3_witness :
    AWSClient.GetInstances api2 2 = some (.ok [instBare, instBare]) := by
  have h := C3_pagination_concat api2 2
    [{ Reservations := [{ Instances := some [srcBare, src48] }],
       NextToken := some "page2" },
     { Reservations := [{ Instances := some [srcBare] }], NextToken := none }]
    (by rfl) (by rfl)
  rw [h]
  rfl

/-- When the per-VPC attribute calls hit an error first, `setVPCAttribute`
returns exactly that error. -/
theorem setVPCAttribute_err {api : VpcApi} (vpc : VPC)
    (cl : DescribeVpcClassicLinkOutput)
    (cld : DescribeVpcClassicLinkDnsSupportOutput) (e : GoError)
    (hwf : vpcsWellFormed api)
    (herr : attrCallError api vpc.VPCId = some e) :
    setVPCAttribute api vpc cl cld = some (.error e) := by
  rw [attrCallError] at herr
  cases h1 : api.describeVpcAttribute vpc.VPCId "enableDnsHostnames" with
  | error e1 =>
    rw [h1] at herr
    simp only [Option.some.injEq] at herr
    subst herr
    simp [setVPCAttribute, h1]
  | ok out1 =>
    rw [h1] at herr
    obtain ⟨ha1, _⟩ := hwf _ _ _ h1
    obtain ⟨a1, ha1'⟩ := Option.isSome_iff_exists.mp ha1
    cases h2 : api.describeVpcAttribute vpc.VPCId "enableDnsSupport" with
    | error e2 =>
      rw [h2] at herr
      simp only [Option.some.injEq] at herr
      subst herr
      simp [setVPCAttribute, h1, ha1', h2]
    | ok out2 =>
      rw [h2] at herr
      simp at herr

/-- When the per-VPC attribute calls both succeed on a well-formed API,
`setVPCAttribute` succeeds. -/
theorem setVPCAttribute_ok {api : VpcApi} (vpc : VPC)
    (cl : DescribeVpcClassicLinkOutput)
    (cld : DescribeVpcClassicLinkDnsSupportOutput)
    (hwf : vpcsWellFormed api)
    (hok : attrCallError api vpc.VPCId = none) :
    ∃ vpc2, setVPCAttribute api vpc cl cld = some (.ok vpc2) := by
  rw [attrCallError] at hok
  cases h1 : api.describeVpcAttribute vpc.VPCId "enableDnsHostnames" with
  | error e1 =>
    rw [h1] at hok
    simp at hok
  | ok out1 =>
    rw [h1] at hok
    obtain ⟨ha1, _⟩ := hwf _ _ _ h1
    obtain ⟨a1, ha1'⟩ := Option.isSome_iff_exists.mp ha1
    cases h2 : api.describeVpcAttribute vpc.VPCId "enableDnsSupport" with
    | error e2 =>
      rw [h2] at hok
      simp at hok
    | ok out2 =>
      obtain ⟨_, ha2⟩ := hwf _ _ _ h2
      obtain ⟨a2, ha2'⟩ := Option.isSome_iff_exists.mp ha2
      cases hres : setVPCAttribute api vpc cl cld with
      | none =>
        simp [setVPCAttribute, h1, ha1', h2, ha2'] at hres
      | some r =>
        cases r with
        | error e =>
          simp [setVPCAttribute, h1, ha1', h2, ha2'] at hres
        | ok vpc2 =>
          exact ⟨vpc2, rfl⟩

/-- The `GetVPCs` loop propagates the first attribute-call error, with no
partial collection: whatever has been accumulated is discarded. -/
theorem getVPCsLoop_err {api : VpcApi} {cl : DescribeVpcClassicLinkOutput}
    {cld : DescribeVpcClassicLinkDnsSupportOutput} :
    ∀ (vs : List EC2Vpc) (acc : List VPC) (e : GoError),
      vpcsWellFormed api →
      firstAttrError api (vs.map (fun v => v.VpcId)) = some e →
      GetVPCsLoop api cl cld vs acc = some (.error e) := by
  intro vs
  induction vs with
  | nil =>
    intro acc e _ h
    simp [firstAttrError] at h
  | cons v rest ih =>
    intro acc e hwf h
    rw [List.map_cons, firstAttrError] at h
    have hid : (mkVPC v).VPCId = v.VpcId := rfl
    cases hac : attrCallError api v.VpcId with
    | some e0 =>
      rw [hac] at h
      simp only [Option.some.injEq] at h
      subst h
      have hset : setVPCAttribute api (mkVPC v) cl cld = some (.error e0) := by
        refine setVPCAttribute_err (mkVPC v) cl cld e0 hwf ?_
        rw [hid]
        exact hac
      simp [GetVPCsLoop, hset]
    | none =>
      rw [hac] at h
      obtain ⟨vpc2, hset⟩ : ∃ vpc2,
          setVPCAttribute api (mkVPC v) cl cld = some (.ok vpc2) := by
        refine setVPCAttribute_ok (mkVPC v) cl cld hwf ?_
        rw [hid]
        exact hac
      simp only [GetVPCsLoop, hset]
      exact ih _ e hwf h

/-- C8: a (non-allow-listed) API error aborts the whole fetch for the
resource type.  For `GetInstances`: if the page chain ends in an API
error, the loop returns exactly that error — the pages already fetched
contribute nothing to the result, which carries no instances.  For
`GetVPCs`: the first error any of its describe calls returns is returned
unmodified, with no partial VPC collection. -/
theorem C8_error_abort :
    (∀ (api : Option String → Except GoError DescribeInstancesOutput)
       (fuel : Nat) (pages : List DescribeInstancesOutput) (e : GoError),
       fetchPages api fuel none = some (pages, some e) →
       pages.all cleanPage = true →
       AWSClient.GetInstances api fuel = some (.error e)) ∧
    (∀ (api : VpcApi) (e : GoError),
       vpcsWellFormed api →
       firstVpcError api = some e →
       AWSClient.GetVPCs api = some (.error e)) := by
  constructor
  · intro api fuel pages e hfp hclean
    have h := getInstancesLoop_spec api fuel none [] pages (some e) hfp hclean
    simpa [AWSClient.GetInstances] using h
  · intro api e hwf h
    rw [firstVpcError] at h
    cases hv : api.describeVpcs with
    | error e1 =>
      rw [hv] at h
      simp only [Option.some.injEq] at h
      subst h
      simp [AWSClient.GetVPCs, hv]
    | ok basicInfo =>
      rw [hv] at h
      cases hc : api.describeVpcClassicLink with
      | error e2 =>
        rw [hc] at h
        simp only [Option.some.injEq] at h
        subst h
        simp [AWSClient.GetVPCs, hv, hc]
      | ok classicLink =>
        rw [hc] at h
        cases hd : api.describeVpcClassicLinkDnsSupport with
        | error e3 =>
          rw [hd] at h
          simp only [Option.some.injEq] at h
          subst h
          simp [AWSClient.GetVPCs, hv, hc, hd]
        | ok classicLinkDnsSupport =>
          rw [hd] at h
          simp only [AWSClient.GetVPCs, hv, hc, hd]
          exact getVPCsLoop_err basicInfo.Vpcs [] e hwf h

theorem C8_witness :
    AWSClient.GetInstances apiFail 1 =
      some (.error (.awsErr "RequestLimitExceeded" "boom")) ∧
    AWSClient.GetVPCs vpcApiFail =
      some (.error (.awsErr "UnauthorizedOperation" "vpcboom")) := by
  constructor
  · exact C8_error_abort.1 apiFail 1 [] _ (by rfl) (by rfl)
  · refine C8_error_abort.2 vpcApiFail _ ?_ (by rfl)
    intro id attr out h
    have h' : Except.ok
        ({ EnableDnsHostnames := some { Value := some true },
           EnableDnsSupport := some { Value := some true } } :
          DescribeVpcAttributeOutput) = .ok out := h
    injection h' with h2
    subst h2
    exact ⟨rfl, rfl⟩

theorem noAttr_two {p : List Char} (pre mid : String)
    (h1 : ¬ p <+: pre.data) (h2 : ¬ pre.data <+: p) :
    ¬ p <+: (pre ++ mid).data := by
  simp only [String.data_append]
  exact not_prefix_append_of _ h1 h2

theorem noAttr_three {p : List Char} (pre mid suf : String)
    (h1 : ¬ p <+: pre.data) (h2 : ¬ pre.data <+: p) :
    ¬ p <+: (pre ++ mid ++ suf).data := by
  simp only [String.data_append, List.append_assoc]
  exact not_prefix_append_of _ h1 h2

theorem noAttr_tagLine {p : List Char} (e : Option StrPtr × Option StrPtr)
    (h1 : ¬ p <+: "\"".data) (h2 : ¬ "\"".data <+: p) :
    ¬ p <+: (tagLine e).data := by
  unfold tagLine
  simp only [String.data_append, List.append_assoc]
  exact not_prefix_append_of _ h1 h2

theorem noAttr_ebsSeg {a : String} (i : Instance)
    (h1 : ¬ (a ++ " ").data <+: "ebs_optimized = ".data)
    (h2 : ¬ "ebs_optimized = ".data <+: (a ++ " ").data) :
    noAttrLine a (ebsSeg i) := by
  intro l hl
  cases hE : i.EbsOptimized with
  | none => simp [ebsSeg, hE] at hl
  | some b =>
    simp only [ebsSeg, hE, List.mem_singleton] at hl
    subst hl
    exact noAttr_two _ _ h1 h2

theorem noAttr_iamSeg {a : String} (i : Instance)
    (h1 : ¬ (a ++ " ").data <+: "iam_instance_profile = \"".data)
    (h2 : ¬ "iam_instance_profile = \"".data <+: (a ++ " ").data) :
    noAttrLine a (iamSeg i) := by
  intro l hl
  cases hE : i.IamInstanceProfile with
  | none => simp [iamSeg, hE] at hl
  | some s =>
    simp only [iamSeg, hE, List.mem_singleton] at hl
    subst hl
    exact noAttr_three _ _ _ h1 h2

theorem noAttr_keySeg {a : String} (i : Instance)
    (h1 : ¬ (a ++ " ").data <+: "key_name = \"".data)
    (h2 : ¬ "key_name = \"".data <+: (a ++ " ").data) :
    noAttrLine a (keySeg i) := by
  intro l hl
  cases hE : i.KeyName with
  | none => simp [keySeg, hE] at hl
  | some s =>
    simp only [keySeg, hE, List.mem_singleton] at hl
    subst hl
    exact noAttr_three _ _ _ h1 h2

theorem noAttr_monSeg {a : String} (i : Instance)
    (h1 : ¬ (a ++ " ").data <+: "monitoring = ".data)
    (h2 : ¬ "monitoring = ".data <+: (a ++ " ").data) :
    noAttrLine a (monSeg i) := by
  intro l hl
  cases hE : i.Monitoring with
  | none => simp [monSeg, hE] at hl
  | some b =>
    simp only [monSeg, hE, List.mem_singleton] at hl
    subst hl
    exact noAttr_two _ _ h1 h2

theorem noAttr_sdcSeg {a : String} (i : Instance)
    (h1 : ¬ (a ++ " ").data <+: "source_dest_check = ".data)
    (h2 : ¬ "source_dest_check = ".data <+: (a ++ " ").data) :
    noAttrLine a (sdcSeg i) := by
  intro l hl
  cases hE : i.SourceDestCheck with
  | none => simp [sdcSeg, hE] at hl
  | some b =>
    simp only [sdcSeg, hE, List.mem_singleton] at hl
    subst hl
    exact noAttr_two _ _ h1 h2

theorem noAttr_subnetSeg {a : String} (i : Instance)
    (h1 : ¬ (a ++ " ").data <+: "subnet_id = \"".data)
    (h2 : ¬ "subnet_id = \"".data <+: (a ++ " ").data) :
    noAttrLine a (subnetSeg i) := by
  intro l hl
  cases hE : i.SubnetID with
  | none => simp [subnetSeg, hE] at hl
  | some s =>
    simp only [subnetSeg, hE, List.mem_singleton] at hl
    subst hl
    exact noAttr_three _ _ _ h1 h2

theorem noAttr_sgSeg {a : String} (i : Instance)
    (h1 : ¬ (a ++ " ").data <+: "vpc_security_group_ids = [".data)
    (h2 : ¬ "vpc_security_group_ids = [".data <+: (a ++ " ").data) :
    noAttrLine a (sgSeg i) := by
  intro l hl
  cases hE : i.SecurityGroups with
  | nil => simp [sgSeg, hE] at hl
  | cons x xs =>
    simp only [sgSeg, hE, List.mem_singleton] at hl
    subst hl
    exact noAttr_three _ _ _ h1 h2

theorem noAttr_tagsSeg {a : String} (i : Instance)
    (hA : ¬ (a ++ " ").data <+: "tags \x7b".data)
    (hB : ¬ (a ++ " ").data <+: "\x7d".data)
    (hC : ¬ (a ++ " ").data <+: "\"".data)
    (hD : ¬ "\"".data <+: (a ++ " ").data) :
    noAttrLine a (tagsSeg i) := by
  intro l hl
  cases hT : i.Tags with
  | none => simp [tagsSeg, hT] at hl
  | some ts =>
    cases ts with
    | nil => simp [tagsSeg, hT] at hl
    | cons t0 ts' =>
      simp only [tagsSeg, hT] at hl
      rw [List.mem_append, List.mem_append] at hl
      rcases hl with (hl | hl) | hl
      · simp only [List.mem_singleton] at hl
        subst hl
        exact hA
      · rcases List.mem_map.mp hl with ⟨e, _, rfl⟩
        exact noAttr_tagLine e hC hD
      · simp only [List.mem_singleton] at hl
        subst hl
        exact hB

theorem noAttrFixedThree {a : String} (i : Instance)
    (hH1 : ¬ (a ++ " ").data <+: "resource \"aws_instance\" \"".data)
    (hH2 : ¬ "resource \"aws_instance\" \"".data <+: (a ++ " ").data)
    (hA1 : ¬ (a ++ " ").data <+: "ami = \"".data)
    (hA2 : ¬ "ami = \"".data <+: (a ++ " ").data)
    (hT1 : ¬ (a ++ " ").data <+: "instance_type = \"".data)
    (hT2 : ¬ "instance_type = \"".data <+: (a ++ " ").data) :
    noAttrLine a [headerLine i, amiLine i, instanceTypeLine i] := by
  refine noAttrLine_cons (noAttr_three _ _ _ hH1 hH2) ?_
  refine noAttrLine_cons (noAttr_three _ _ _ hA1 hA2) ?_
  exact noAttrLine_cons (noAttr_three _ _ _ hT1 hT2) (noAttrLine_nil a)

theorem noEbsLine (i : Instance) (h : i.EbsOptimized = none) :
    noAttrLine "ebs_optimized" (renderInstance i) := by
  have hnil : ebsSeg i = [] := by simp [ebsSeg, h]
  unfold renderInstance
  apply noAttrLine_flatten
  intro seg hseg
  simp only [List.mem_cons, List.not_mem_nil, or_false] at hseg
  rcases hseg with rfl | rfl | rfl | rfl | rfl | rfl | rfl | rfl | rfl | rfl | rfl
  · exact noAttrFixedThree i (by decide) (by decide) (by decide) (by decide)
      (by decide) (by decide)
  · rw [hnil]
    exact noAttrLine_nil _
  · exact noAttr_iamSeg i (by decide) (by decide)
  · exact noAttr_keySeg i (by decide) (by decide)
  · exact noAttr_monSeg i (by decide) (by decide)
  · exact noAttr_sdcSeg i (by decide) (by decide)
  · exact noAttr_subnetSeg i (by decide) (by decide)
  · exact noAttr_sgSeg i (by decide) (by decide)
  · exact noAttr_tagsSeg i (by decide) (by decide) (by decide) (by decide)
  · exact noAttrLine_cons (by decide) (noAttrLine_nil _)

theorem noIamLine (i : Instance) (h : i.IamInstanceProfile = none) :
    noAttrLine "iam_instance_profile" (renderInstance i) := by
  have hnil : iamSeg i = [] := by simp [iamSeg, h]
  unfold renderInstance
  apply noAttrLine_flatten
  intro seg hseg
  simp only [List.mem_cons, List.not_mem_nil, or_false] at hseg
  rcases hseg with rfl | rfl | rfl | rfl | rfl | rfl | rfl | rfl | rfl | rfl | rfl
  · exact noAttrFixedThree i (by decide) (by decide) (by decide) (by decide)
      (by decide) (by decide)
  · exact noAttr_ebsSeg i (by decide) (by decide)
  · rw [hnil]
    exact noAttrLine_nil _
  · exact noAttr_keySeg i (by decide) (by decide)
  · exact noAttr_monSeg i (by decide) (by decide)
  · exact noAttr_sdcSeg i (by decide) (by decide)
  · exact noAttr_subnetSeg i (by decide) (by decide)
  · exact noAttr_sgSeg i (by decide) (by decide)
  · exact noAttr_tagsSeg i (by decide) (by decide) (by decide) (by decide)
  · exact noAttrLine_cons (by decide) (noAttrLine_nil _)

theorem noKeyLine (i : Instance) (h : i.KeyName = none) :
    noAttrLine "key_name" (renderInstance i) := by
  have hnil : keySeg i = [] := by simp [keySeg, h]
  unfold renderInstance
  apply noAttrLine_flatten
  intro seg hseg
  simp only [List.mem_cons, List.not_mem_nil, or_false] at hseg
  rcases hseg with rfl | rfl | rfl | rfl | rfl | rfl | rfl | rfl | rfl | rfl | rfl
  · exact noAttrFixedThree i (by decide) (by decide) (by decide) (by decide)
      (by decide) (by decide)
  · exact noAttr_ebsSeg i (by decide) (by decide)
  · exact noAttr_iamSeg i (by decide) (by decide)
  · rw [hnil]
    exact noAttrLine_nil _
  · exact noAttr_monSeg i (by decide) (by decide)
  · exact noAttr_sdcSeg i (by decide) (by decide)
  · exact noAttr_subnetSeg i (by decide) (by decide)
  · exact noAttr_sgSeg i (by decide) (by decide)
  · exact noAttr_tagsSeg i (by decide) (by decide) (by decide) (by decide)
  · exact noAttrLine_cons (by decide) (noAttrLine_nil _)

theorem noSdcLine (i : Instance) (h : i.SourceDestCheck = none) :
    noAttrLine "source_dest_check" (renderInstance i) := by
  have hnil : sdcSeg i = [] := by simp [sdcSeg, h]
  unfold renderInstance
  apply noAttrLine_flatten
  intro seg hseg
  simp only [List.mem_cons, List.not_mem_nil, or_false] at hseg
  rcases hseg with rfl | rfl | rfl | rfl | rfl | rfl | rfl | rfl | rfl | rfl | rfl
  · exact noAttrFixedThree i (by decide) (by decide) (by decide) (by decide)
      (by decide) (by decide)
  · exact noAttr_ebsSeg i (by decide) (by decide)
  · exact noAttr_iamSeg i (by decide) (by decide)
  · exact noAttr_keySeg i (by decide) (by decide)
  · exact noAttr_monSeg i (by decide) (by decide)
  · rw [hnil]
    exact noAttrLine_nil _
  · exact noAttr_subnetSeg i (by decide) (by decide)
  · exact noAttr_sgSeg i (by decide) (by decide)
  · exact noAttr_tagsSeg i (by decide) (by decide) (by decide) (by decide)
  · exact noAttrLine_cons (by decide) (noAttrLine_nil _)

theorem noSubnetLine (i : Instance) (h : i.SubnetID = none) :
    noAttrLine "subnet_id" (renderInstance i) := by
  have hnil : subnetSeg i = [] := by simp [subnetSeg, h]
  unfold renderInstance
  apply noAttrLine_flatten
  intro seg hseg
  simp only [List.mem_cons, List.not_mem_nil, or_false] at hseg
  rcases hseg with rfl | rfl | rfl | rfl | rfl | rfl | rfl | rfl | rfl | rfl | rfl
  · exact noAttrFixedThree i (by decide) (by decide) (by decide) (by decide)
      (by decide) (by decide)
  · exact noAttr_ebsSeg i (by decide) (by decide)
  · exact noAttr_iamSeg i (by decide) (by decide)
  · exact noAttr_keySeg i (by decide) (by decide)
  · exact noAttr_monSeg i (by decide) (by decide)
  · exact noAttr_sdcSeg i (by decide) (by decide)
  · rw [hnil]
    exact noAttrLine_nil _
  · exact noAttr_sgSeg i (by decide) (by decide)
  · exact noAttr_tagsSeg i (by decide) (by decide) (by decide) (by decide)
  · exact noAttrLine_cons (by decide) (noAttrLine_nil _)

theorem noSgLine (i : Instance) (h : i.SecurityGroups = []) :
    noAttrLine "vpc_security_group_ids" (renderInstance i) := by
  have hnil : sgSeg i = [] := by simp [sgSeg, h]
  unfold renderInstance
  apply noAttrLine_flatten
  intro seg hseg
  simp only [List.mem_cons, List.not_mem_nil, or_false] at hseg
  rcases hseg with rfl | rfl | rfl | rfl | rfl | rfl | rfl | rfl | rfl | rfl | rfl
  · exact noAttrFixedThree i (by decide) (by decide) (by decide) (by decide)
      (by decide) (by decide)
  · exact noAttr_ebsSeg i (by decide) (by decide)
  · exact noAttr_iamSeg i (by decide) (by decide)
  · exact noAttr_keySeg i (by decide) (by decide)
  · exact noAttr_monSeg i (by decide) (by decide)
  · exact noAttr_sdcSeg i (by decide) (by decide)
  · exact noAttr_subnetSeg i (by decide) (by decide)
  · rw [hnil]
    exact noAttrLine_nil _
  · exact noAttr_tagsSeg i (by decide) (by decide) (by decide) (by decide)
  · exact noAttrLine_cons (by decide) (noAttrLine_nil _)

theorem noTagsLine (i : Instance) (h : i.Tags = none) :
    noAttrLine "tags" (renderInstance i) := by
  have hnil : tagsSeg i = [] := by simp [tagsSeg, h]
  unfold renderInstance
  apply noAttrLine_flatten
  intro seg hseg
  simp only [List.mem_cons, List.not_mem_nil, or_false] at hseg
  rcases hseg with rfl | rfl | rfl | rfl | rfl | rfl | rfl | rfl | rfl | rfl | rfl
  · exact noAttrFixedThree i (by decide) (by decide) (by decide) (by decide)
      (by decide) (by decide)
  · exact noAttr_ebsSeg i (by decide) (by decide)
  · exact noAttr_iamSeg i (by decide) (by decide)
  · exact noAttr_keySeg i (by decide) (by decide)
  · exact noAttr_monSeg i (by decide) (by decide)
  · exact noAttr_sdcSeg i (by decide) (by decide)
  · exact noAttr_subnetSeg i (by decide) (by decide)
  · exact noAttr_sgSeg i (by decide) (by decide)
  · rw [hnil]
    exact noAttrLine_nil _
  · exact noAttrLine_cons (by decide) (noAttrLine_nil _)

/-- C1 (amended): for every source instance that maps without panicking,
each unset optional source field stays unset in the mapped struct, and
for each conditionally rendered attribute (`ebs_optimized`,
`iam_instance_profile`, `key_name`, `source_dest_check`, `subnet_id`,
`vpc_security_group_ids`, `tags`) the rendered block contains no line for
that attribute.  The `ami` and `instance_type` attributes (and the
instance id in the resource header) are excluded: their template
substitutions are unconditional, so only the mapped field stays unset. -/
theorem C1_amended :
    ∀ (src : EC2Instance) (i : Instance), Instance.set src = some i →
      (src.EbsOptimized = none → i.EbsOptimized = none ∧
        noAttrLine "ebs_optimized" (renderInstance i)) ∧
      (src.IamInstanceProfile = none → i.IamInstanceProfile = none ∧
        noAttrLine "iam_instance_profile" (renderInstance i)) ∧
      (src.KeyName = none → i.KeyName = none ∧
        noAttrLine "key_name" (renderInstance i)) ∧
      (src.SourceDestCheck = none → i.SourceDestCheck = none ∧
        noAttrLine "source_dest_check" (renderInstance i)) ∧
      (src.SubnetId = none → i.SubnetID = none ∧
        noAttrLine "subnet_id" (renderInstance i)) ∧
      (src.SecurityGroups = none → i.SecurityGroups = [] ∧
        noAttrLine "vpc_security_group_ids" (renderInstance i)) ∧
      (src.Tags = none → i.Tags = none ∧
        noAttrLine "tags" (renderInstance i)) ∧
      (src.ImageId = none → i.ImageID = none) ∧
      (src.InstanceId = none → i.InstanceID = none) ∧
      (src.InstanceType = none → i.InstanceType = none) ∧
      (src.VpcId = none → i.VpcID = none) := by
  intro src i h
  cases hm : src.Monitoring with
  | none => simp [Instance.set, hm] at h
  | some mon =>
    simp only [Instance.set, hm, Option.some.injEq] at h
    subst h
    refine ⟨?_, ?_, ?_, ?_, ?_, ?_, ?_, ?_, ?_, ?_, ?_⟩
    · intro hx
      exact ⟨hx, noEbsLine _ hx⟩
    · intro hx
      refine ⟨by simp [hx], noIamLine _ (by simp [hx])⟩
    · intro hx
      exact ⟨hx, noKeyLine _ hx⟩
    · intro hx
      exact ⟨hx, noSdcLine _ hx⟩
    · intro hx
      exact ⟨hx, noSubnetLine _ hx⟩
    · intro hx
      refine ⟨by simp [hx], noSgLine _ (by simp [hx])⟩
    · intro hx
      refine ⟨by simp [hx], noTagsLine _ (by simp [hx])⟩
    · intro hx
      exact hx
    · intro hx
      exact hx
    · intro hx
      exact hx
    · intro hx
      exact hx

/-- C1 fails as literally stated: with an unset `ImageId` (and unset
`InstanceType`) the mapped fields are unset, yet the rendered block still
contains an `ami` line and an `instance_type` line (printing the nil
pointer as the literal text <nil>). -/
theorem C1_counterexample :
    srcBare.ImageId = none ∧
    Instance.set srcBare = some instBare ∧
    instBare.ImageID = none ∧
    ¬ noAttrLine "ami" (renderInstance instBare) ∧
    srcBare.InstanceType = none ∧
    instBare.InstanceType = none ∧
    ¬ noAttrLine "instance_type" (renderInstance instBare) := by
  refine ⟨rfl, by decide, rfl, ?_, rfl, rfl, ?_⟩
  · intro hno
    exact hno (amiLine instBare) (by decide) (by decide)
  · intro hno
    exact hno (instanceTypeLine instBare) (by decide) (by decide)

theorem C1_witness :
    noAttrLine "ebs_optimized" (renderInstance instBare) ∧
    noAttrLine "subnet_id" (renderInstance instBare) ∧
    noAttrLine "tags" (renderInstance instBare) :=
  ⟨((C1_amended srcBare instBare rfl).1 rfl).2,
   ((C1_amended srcBare instBare rfl).2.2.2.2.1 rfl).2,
   ((C1_amended srcBare instBare rfl).2.2.2.2.2.2.1 rfl).2⟩

end Tfit
